import Mathlib

/-!
Verification of the week-wise survey bot (`bot.py`).

The Python program is shallowly embedded: each handler becomes a pure Lean
function from a global `BotState` (the module-level mutable maps and
counters) together with the outcomes of the external calls it performs
(Telegram sends/deletes, Google Sheets create/share/append) to the updated
state plus an `Outcome` describing how the handler returned.  External-call
outcomes are passed as explicit boolean/option parameters, since the source
treats them as opaque fallible effects.  Timestamps (`datetime.now()`) are
modelled as natural numbers (seconds); message ids are allocated from a
fresh counter.  The list `live_messages` is a ghost record of bot-sent
prompt/status messages that have not been deleted, used to state the
message-lifecycle invariant.
-/

namespace WeekBot

/-- Python list slicing `l[:i]`, including negative-index semantics:
for `i ≥ 0` it keeps the first `i` elements, for `i < 0` it keeps
`len(l) + i` elements (clamped at 0), never raising. -/
def pyTake (l : List String) (i : Int) : List String :=
  if 0 ≤ i then l.take i.toNat else l.take (l.length - (-i).toNat)

/-- Python list indexing `l[i]` with negative-index support; `none`
models an `IndexError`. -/
def pyGet (l : List String) (i : Int) : Option String :=
  if 0 ≤ i then l.get? i.toNat
  else if (-i).toNat ≤ l.length then l.get? (l.length - (-i).toNat) else none

/-- Dictionary read `m.get(k)` / `m[k]` membership test, over an
insertion-ordered association list (Python `dict` semantics). -/
def lookupKey {α : Type} : List (Nat × α) → Nat → Option α
  | [], _ => none
  | p :: ps, k => if p.1 == k then some p.2 else lookupKey ps k

/-- Dictionary write `m[k] = v`: replaces the value in place if the key
exists, otherwise appends (Python `dict` insertion order). -/
def setKey {α : Type} : List (Nat × α) → Nat → α → List (Nat × α)
  | [], k, v => [(k, v)]
  | p :: ps, k, v => if p.1 == k then (k, v) :: ps else p :: setKey ps k v

/-- Dictionary deletion `del m[k]`. -/
def eraseKey {α : Type} (m : List (Nat × α)) (k : Nat) : List (Nat × α) :=
  m.filter (fun p => p.1 != k)

/-- The fields of `update.message.from_user` read by the handlers. -/
structure TgUser where
  id : Nat
  first_name : String
  last_name : String
  username : String
  deriving DecidableEq, Repr

/-- A row appended to a sheet by `save_response_to_sheet`
(`[user.id, f"{first} {last}", username, timestamp] + user_responses`). -/
structure Row where
  userId : Nat
  name : String
  username : String
  timestamp : Nat
  answers : List String
  deriving DecidableEq, Repr

/-- The module-level mutable state of `bot.py`: `responses`, `questions`,
the per-user `context.user_data['prev_message_id']` cell,
`current_spreadsheet_id`, `week_count`, `spreadsheet_ids`,
`last_sheet_creation_date`, together with ghost fields recording the rows
appended to sheets (`sheet_rows`, tagged with the spreadsheet id they were
appended to), the not-yet-deleted bot prompt/status messages
(`live_messages`) and a fresh message-id counter. -/
structure BotState where
  responses : List (Nat × List String)
  questions : List String
  user_data_prev : List (Nat × Option Nat)
  current_spreadsheet_id : Option String
  week_count : Nat
  spreadsheet_ids : List (Nat × String)
  last_sheet_creation_date : Option Nat
  sheet_rows : List (String × Row)
  live_messages : List Nat
  next_message_id : Nat
  deriving DecidableEq, Repr

/-- How a handler invocation returned. `keyError` / `indexError` model
uncaught Python exceptions escaping the handler to the dispatcher;
`deliveryError` models an uncaught Telegram error from an unwrapped
`delete_message`; `savedError` models the `except` branch at the end of
the completion path of `receive_response` (line 267). -/
inductive Outcome where
  | ok
  | notStarted
  | keyError
  | indexError
  | deliveryError
  | savedError
  deriving DecidableEq, Repr

/-- `send_question` (bot.py lines 208-232): computes the question text
(raising `IndexError` if `question_index` is out of Python range, before
any side effect), then attempts to delete the previously recorded prompt
message (failure tolerated by the inner try/except), sends the new
question and records its message id.  A send failure is caught at line
230 and only an untracked error text is sent. -/
def send_question (s : BotState) (user chat : Nat) (question_index : Int)
    (delete_prev_ok send_ok : Bool) : BotState × Outcome :=
  match pyGet s.questions question_index with
  | none => (s, Outcome.indexError)
  | some _ =>
    let s1 :=
      match (lookupKey s.user_data_prev user).join with
      | some m =>
          if delete_prev_ok then { s with live_messages := s.live_messages.erase m } else s
      | none => s
    if send_ok then
      ({ s1 with
          live_messages := s1.live_messages ++ [s1.next_message_id],
          next_message_id := s1.next_message_id + 1,
          user_data_prev := setKey s1.user_data_prev user (some s1.next_message_id) },
        Outcome.ok)
    else (s1, Outcome.ok)

/-- The `start_form` branch of `button` (bot.py lines 178-185): resets the
user's answer list to `[]`, deletes the pressed message, clears the
recorded prompt id, and sends question 0. -/
def button_start_form (s : BotState) (user chat query_msg : Nat)
    (delete_query_ok delete_prev_ok send_ok : Bool) : BotState × Outcome :=
  let s1 := { s with responses := setKey s.responses user [] }
  if delete_query_ok then
    let s2 := { s1 with live_messages := s1.live_messages.erase query_msg }
    let s3 := { s2 with user_data_prev := setKey s2.user_data_prev user none }
    send_question s3 user chat 0 delete_prev_ok send_ok
  else (s1, Outcome.deliveryError)

/-- The `back_to_start` branch of `button` (bot.py lines 186-193): drops
the user's session if present, deletes the pressed message and clears the
recorded prompt id (the re-sent start menu is not a tracked prompt). -/
def button_back_to_start (s : BotState) (user chat query_msg : Nat)
    (delete_query_ok : Bool) : BotState × Outcome :=
  let s1 := { s with responses := eraseKey s.responses user }
  if delete_query_ok then
    ({ s1 with
        live_messages := s1.live_messages.erase query_msg,
        user_data_prev := setKey s1.user_data_prev user none },
      Outcome.ok)
  else (s1, Outcome.deliveryError)

/-- The `back_to_question_<n>` branch of `button` (bot.py lines 200-206):
`responses[user_id] = responses[user_id][:question_index]` (raising
`KeyError` first when the user has no session), then deletes the pressed
message and calls `send_question` on the parsed index.  No bounds check
is performed on `question_index`. -/
def button_back_to_question (s : BotState) (user chat : Nat) (question_index : Int)
    (query_msg : Nat) (delete_query_ok delete_prev_ok send_ok : Bool) : BotState × Outcome :=
  match lookupKey s.responses user with
  | none => (s, Outcome.keyError)
  | some answers =>
    let s1 := { s with responses := setKey s.responses user (pyTake answers question_index) }
    if delete_query_ok then
      let s2 := { s1 with live_messages := s1.live_messages.erase query_msg }
      send_question s2 user chat question_index delete_prev_ok send_ok
    else (s1, Outcome.deliveryError)

/-- The row built by `save_response_to_sheet` (bot.py lines 277-279). -/
def mkRow (u : TgUser) (now : Nat) (answers : List String) : Row :=
  { userId := u.id, name := u.first_name ++ " " ++ u.last_name,
    username := u.username, timestamp := now, answers := answers }

/-- `receive_response` (bot.py lines 235-271).  With no session for the
sender it only prompts them to start (`notStarted`).  Otherwise the text
is appended to the session first; if the session is still shorter than
the question list the next question is sent, else the completion path
runs: `save_response_to_sheet` appends the row to
`current_spreadsheet_id` (any storage failure, or an unset spreadsheet
id, raises and is caught at line 267 with the session kept), then the
session is deleted, the user's message and the previous prompt are
deleted, and the final notice is sent and its id recorded.  The admin
fan-out of `save_response_to_sheet` (lines 286-294) touches no state
read by any claim and is omitted. -/
def receive_response (s : BotState) (u : TgUser) (chat : Nat) (text : String) (now : Nat)
    (save_ok delete_user_msg_ok delete_prev_ok send_ok : Bool) : BotState × Outcome :=
  match lookupKey s.responses u.id with
  | none => (s, Outcome.notStarted)
  | some prev_answers =>
    let answers := prev_answers ++ [text]
    let s1 := { s with responses := setKey s.responses u.id answers }
    if answers.length < s1.questions.length then
      if delete_user_msg_ok then
        send_question s1 u.id chat (Int.ofNat answers.length) delete_prev_ok send_ok
      else (s1, Outcome.deliveryError)
    else
      match save_ok, s1.current_spreadsheet_id with
      | true, some sid =>
        let s2 := { s1 with sheet_rows := s1.sheet_rows ++ [(sid, mkRow u now answers)] }
        let s3 := { s2 with responses := eraseKey s2.responses u.id }
        if delete_user_msg_ok then
          match (lookupKey s3.user_data_prev u.id).join with
          | some m =>
            if delete_prev_ok then
              let s4 := { s3 with
                  live_messages := s3.live_messages.erase m,
                  user_data_prev := setKey s3.user_data_prev u.id none }
              if send_ok then
                ({ s4 with
                    live_messages := s4.live_messages ++ [s4.next_message_id],
                    next_message_id := s4.next_message_id + 1,
                    user_data_prev := setKey s4.user_data_prev u.id (some s4.next_message_id) },
                  Outcome.ok)
              else (s4, Outcome.savedError)
            else (s3, Outcome.savedError)
          | none =>
            if send_ok then
              ({ s3 with
                  live_messages := s3.live_messages ++ [s3.next_message_id],
                  next_message_id := s3.next_message_id + 1,
                  user_data_prev := setKey s3.user_data_prev u.id (some s3.next_message_id) },
                Outcome.ok)
            else (s3, Outcome.savedError)
        else (s3, Outcome.savedError)
      | _, _ => (s1, Outcome.savedError)

/-- `create_new_sheet` (bot.py lines 68-105).  A failure of the create
call itself leaves every global untouched; once the create succeeds,
`current_spreadsheet_id` is assigned (line 83) before the two sharing
grants, so a sharing failure returns `None` with the registry and week
counter unchanged but the active id already pointing at the new sheet.
On full success the id is recorded under the current `week_count`, the
counter is incremented and the creation date stored. -/
def create_new_sheet (s : BotState) (create_result : Option String)
    (share_service_ok share_user_ok : Bool) (now : Nat) : BotState × Option String :=
  match create_result with
  | none => (s, none)
  | some sid =>
    let s1 := { s with current_spreadsheet_id := some sid }
    if share_service_ok then
      if share_user_ok then
        ({ s1 with
            spreadsheet_ids := setKey s1.spreadsheet_ids s1.week_count sid,
            week_count := s1.week_count + 1,
            last_sheet_creation_date := some now },
          some sid)
      else (s1, none)
    else (s1, none)

/-- The `add` branch of `edit_questions` (bot.py lines 152-155). -/
def edit_questions_add (s : BotState) (q : String) : BotState :=
  { s with questions := s.questions ++ [q] }

/-- The `remove` branch of `edit_questions` (bot.py lines 156-162):
`index = int(arg) - 1`, popped only when `0 <= index < len(questions)`. -/
def edit_questions_remove (s : BotState) (n : Int) : BotState :=
  let index := n - 1
  if 0 ≤ index ∧ index.toNat < s.questions.length then
    { s with questions := s.questions.eraseIdx index.toNat }
  else s

/-- A stored sheet row as parsed by `see_answers`: `int(row[0])`,
`row[1]`, the timestamp parsed from `row[3]`, and `row[4:]`. -/
structure StoredRow where
  userId : Nat
  name : String
  timestamp : Nat
  answers : List String
  deriving DecidableEq, Repr

/-- The selection loop of `see_answers` (bot.py lines 395-401): walks the
rows keeping the current best `(name, timestamp, answers)`; a row for the
queried user replaces the best only when its timestamp is strictly
greater (`timestamp > latest_timestamp`). -/
def selectLatest (uid : Nat) :
    List StoredRow → Option (String × Nat × List String) → Option (String × Nat × List String)
  | [], acc => acc
  | r :: rs, acc =>
    if r.userId = uid then
      match acc with
      | none => selectLatest uid rs (some (r.name, r.timestamp, r.answers))
      | some (n, lt, a) =>
        if lt < r.timestamp then selectLatest uid rs (some (r.name, r.timestamp, r.answers))
        else selectLatest uid rs (some (n, lt, a))
    else selectLatest uid rs acc

/-- `see_answers` (bot.py lines 383-409): skips the header row
(`rows[1:]`) and runs the selection loop. -/
def see_answers (rows : List StoredRow) (uid : Nat) : Option (String × Nat × List String) :=
  selectLatest uid (rows.drop 1) none

/-- One inbound event, carrying the outcomes of the external calls the
corresponding handler will make. -/
inductive Action where
  | startForm (user chat query_msg : Nat) (delete_query_ok delete_prev_ok send_ok : Bool)
  | backToStart (user chat query_msg : Nat) (delete_query_ok : Bool)
  | backToQuestion (user chat : Nat) (question_index : Int) (query_msg : Nat)
      (delete_query_ok delete_prev_ok send_ok : Bool)
  | textMessage (u : TgUser) (chat : Nat) (text : String) (now : Nat)
      (save_ok delete_user_msg_ok delete_prev_ok send_ok : Bool)
  | editAdd (q : String)
  | editRemove (n : Int)
  | newWeek (create_result : Option String) (share_service_ok share_user_ok : Bool) (now : Nat)

/-- Dispatch of one action to its handler, keeping the resulting state
(an uncaught handler exception is absorbed by the dispatcher, so the
process continues from whatever state the handler left behind). -/
def stepAction (s : BotState) (a : Action) : BotState :=
  match a with
  | Action.startForm user chat qm d1 d2 so => (button_start_form s user chat qm d1 d2 so).1
  | Action.backToStart user chat qm d1 => (button_back_to_start s user chat qm d1).1
  | Action.backToQuestion user chat k qm d1 d2 so =>
      (button_back_to_question s user chat k qm d1 d2 so).1
  | Action.textMessage u chat t now sv d1 d2 so => (receive_response s u chat t now sv d1 d2 so).1
  | Action.editAdd q => edit_questions_add s q
  | Action.editRemove n => edit_questions_remove s n
  | Action.newWeek cr b1 b2 now => (create_new_sheet s cr b1 b2 now).1

/-- Processing a sequence of inbound actions. -/
def runActions (s : BotState) (acts : List Action) : BotState :=
  acts.foldl stepAction s

/-- The question list hard-coded at bot.py lines 59-64. -/
def sourceQuestions : List String :=
  ["1) Brief summary of your week:",
   "2) New projects you are working on:",
   "3) Points of attention for the team:",
   "4) Any other activities you want to mention:"]

/-- The module-level state right after import, before `main` runs. -/
def blankState : BotState :=
  { responses := [], questions := sourceQuestions, user_data_prev := [],
    current_spreadsheet_id := none, week_count := 1, spreadsheet_ids := [],
    last_sheet_creation_date := none, sheet_rows := [], live_messages := [],
    next_message_id := 1 }

/-- The state after `main` has run its startup `create_new_sheet()`
successfully, producing the sheet `sid` at time `now`. -/
def bootState (sid : String) (now : Nat) : BotState :=
  (create_new_sheet blankState (some sid) true true now).1

end WeekBot

namespace WeekBot

theorem lookupKey_setKey_self {α : Type} (m : List (Nat × α)) (k : Nat) (v : α) :
    lookupKey (setKey m k v) k = some v := by
  induction m with
  | nil => simp [setKey, lookupKey]
  | cons p ps ih =>
    by_cases h : p.1 = k
    · simp [setKey, h, lookupKey]
    · simp [setKey, h, lookupKey, ih]

theorem lookupKey_eraseKey_self {α : Type} (m : List (Nat × α)) (k : Nat) :
    lookupKey (eraseKey m k) k = none := by
  induction m with
  | nil => simp [eraseKey, lookupKey]
  | cons p ps ih =>
    by_cases h : p.1 = k
    · simpa [eraseKey, lookupKey, h] using ih
    · simpa [eraseKey, lookupKey, h] using ih

theorem lookupKey_setKey_elim {α : Type} (m : List (Nat × α)) (k u : Nat) (v : α) (w : α)
    (h : lookupKey (setKey m k v) u = some w) :
    (u = k ∧ w = v) ∨ lookupKey m u = some w := by
  induction m with
  | nil =>
    by_cases hk : k = u
    · subst hk
      left
      simp [setKey, lookupKey] at h
      exact ⟨rfl, h.symm⟩
    · simp [setKey, lookupKey, hk] at h
  | cons p ps ih =>
    by_cases hpk : p.1 = k
    · by_cases hku : k = u
      · left
        subst hku
        simp [setKey, hpk, lookupKey] at h
        exact ⟨rfl, h.symm⟩
      · right
        simp only [setKey, hpk] at h
        simp only [beq_self_eq_true, if_true] at h
        have hne : (k == u) = false := by simpa using hku
        rw [lookupKey, hne] at h
        simp only [Bool.false_eq_true, if_false] at h
        have hpu : (p.1 == u) = false := by simp [hpk]; exact hku
        rw [lookupKey, hpu]
        simpa using h
    · have hpk' : (p.1 == k) = false := by simpa using hpk
      simp only [setKey, hpk', Bool.false_eq_true, if_false] at h
      by_cases hpu : p.1 = u
      · right
        have hpu' : (p.1 == u) = true := by simpa using hpu
        rw [lookupKey, hpu'] at h
        rw [lookupKey, hpu']
        simpa using h
      · have hpu' : (p.1 == u) = false := by simpa using hpu
        rw [lookupKey, hpu'] at h
        simp only [Bool.false_eq_true, if_false] at h
        rcases ih h with h1 | h2
        · exact Or.inl h1
        · right
          rw [lookupKey, hpu']
          simpa using h2

theorem lookupKey_eraseKey_elim {α : Type} (m : List (Nat × α)) (k u : Nat) (w : α)
    (h : lookupKey (eraseKey m k) u = some w) :
    lookupKey m u = some w := by
  by_cases huk : u = k
  · subst huk
    rw [lookupKey_eraseKey_self] at h
    exact absurd h (by simp)
  · induction m with
    | nil => simpa [eraseKey, lookupKey] using h
    | cons p ps ih =>
      by_cases hpk : p.1 = k
      · have he : eraseKey (p :: ps) k = eraseKey ps k := by
          simp [eraseKey, List.filter_cons, hpk]
        rw [he] at h
        have hres := ih h
        have hpu : (p.1 == u) = false := by
          simp [hpk]
          exact fun hh => huk hh.symm
        rw [lookupKey, hpu]
        simpa using hres
      · have he : eraseKey (p :: ps) k = p :: eraseKey ps k := by
          simp [eraseKey, List.filter_cons, hpk]
        rw [he] at h
        by_cases hpu : p.1 = u
        · have hpu' : (p.1 == u) = true := by simpa using hpu
          rw [lookupKey, hpu'] at h
          rw [lookupKey, hpu']
          simpa using h
        · have hpu' : (p.1 == u) = false := by simpa using hpu
          rw [lookupKey, hpu'] at h
          simp only [Bool.false_eq_true, if_false] at h
          rw [lookupKey, hpu']
          simp only [Bool.false_eq_true, if_false]
          exact ih h


theorem pyTake_ofNat (l : List String) (n : Nat) : pyTake l (Int.ofNat n) = l.take n := by
  simp [pyTake]

theorem pyTake_length_le (l : List String) (i : Int) : (pyTake l i).length ≤ l.length := by
  unfold pyTake
  split <;> simp [List.length_take]

theorem pyTake_of_length_le (l : List String) (i : Int) (h0 : 0 ≤ i)
    (h : (l.length : Int) ≤ i) : pyTake l i = l := by
  unfold pyTake
  rw [if_pos h0]
  exact List.take_of_length_le (by omega)

theorem pyGet_ofNat_lt (l : List String) (n : Nat) (h : n < l.length) :
    ∃ q, pyGet l (Int.ofNat n) = some q := by
  simp only [pyGet, Int.ofNat_eq_coe]
  rw [if_pos (by omega)]
  simp only [Int.toNat_ofNat]
  exact ⟨l.get ⟨n, h⟩, List.get?_eq_get h⟩

theorem pyGet_nonneg_ge (l : List String) (i : Int) (h0 : 0 ≤ i)
    (h : (l.length : Int) ≤ i) : pyGet l i = none := by
  unfold pyGet
  rw [if_pos h0]
  exact List.get?_eq_none.mpr (by omega)

theorem pyGet_neg_some (l : List String) (i : Int) (hneg : i < 0)
    (hle : (-i).toNat ≤ l.length) : ∃ q, pyGet l i = some q := by
  have h0 : ¬ (0 ≤ i) := by omega
  have h1 : 1 ≤ (-i).toNat := by omega
  have h2 : l.length - (-i).toNat < l.length := by omega
  unfold pyGet
  rw [if_neg h0, if_pos hle]
  exact ⟨l.get ⟨_, h2⟩, List.get?_eq_get h2⟩

/-- Everything `send_question` leaves untouched: it only operates on the
message-lifecycle fields. -/
theorem send_question_frame (s : BotState) (user chat : Nat) (k : Int) (d so : Bool) :
    ((send_question s user chat k d so).1).responses = s.responses ∧
    ((send_question s user chat k d so).1).questions = s.questions ∧
    ((send_question s user chat k d so).1).sheet_rows = s.sheet_rows ∧
    ((send_question s user chat k d so).1).current_spreadsheet_id = s.current_spreadsheet_id ∧
    ((send_question s user chat k d so).1).week_count = s.week_count ∧
    ((send_question s user chat k d so).1).spreadsheet_ids = s.spreadsheet_ids ∧
    ((send_question s user chat k d so).1).last_sheet_creation_date =
      s.last_sheet_creation_date := by
  unfold send_question
  cases hq : pyGet s.questions k with
  | none => simp
  | some q =>
    cases hp : (lookupKey s.user_data_prev user).join with
    | none => cases so <;> simp [hp]
    | some m => cases d <;> cases so <;> simp [hp]

/-- A text message from a participant with no session only sends the
"please start" prompt: the state is returned untouched. -/
theorem receive_response_no_session (s : BotState) (u : TgUser) (chat : Nat) (t : String)
    (now : Nat) (sv d1 d2 so : Bool) (h : lookupKey s.responses u.id = none) :
    receive_response s u chat t now sv d1 d2 so = (s, Outcome.notStarted) := by
  unfold receive_response
  simp only [h]

/-- A non-final answer is appended to the session; the sheet, the question
catalog and the period registry are untouched. -/
theorem receive_response_step (s : BotState) (u : TgUser) (chat : Nat) (t : String) (now : Nat)
    (v : List String) (hv : lookupKey s.responses u.id = some v)
    (hlen : v.length + 1 < s.questions.length) :
    lookupKey ((receive_response s u chat t now true true true true).1).responses u.id
        = some (v ++ [t]) ∧
    ((receive_response s u chat t now true true true true).1).questions = s.questions ∧
    ((receive_response s u chat t now true true true true).1).sheet_rows = s.sheet_rows ∧
    ((receive_response s u chat t now true true true true).1).current_spreadsheet_id
        = s.current_spreadsheet_id := by
  have hfr := send_question_frame { s with responses := setKey s.responses u.id (v ++ [t]) }
      u.id chat (Int.ofNat (v ++ [t]).length) true true
  unfold receive_response
  simp only [hv]
  rw [if_pos (show (v ++ [t]).length <
      ({ s with responses := setKey s.responses u.id (v ++ [t]) } : BotState).questions.length
      by simpa using hlen)]
  simp only [if_true]
  refine ⟨?_, hfr.2.1, hfr.2.2.1, hfr.2.2.2.1⟩
  rw [hfr.1]
  exact lookupKey_setKey_self _ _ _

/-- A final answer whose persistence fails (storage fault, or no active
spreadsheet) leaves the state exactly as after the append: the session is
kept, nothing else changes. -/
theorem receive_response_savefail (s : BotState) (u : TgUser) (chat : Nat) (t : String)
    (now : Nat) (d1 d2 so : Bool) (v : List String)
    (hv : lookupKey s.responses u.id = some v)
    (hlen : s.questions.length ≤ v.length + 1) :
    receive_response s u chat t now false d1 d2 so =
      ({ s with responses := setKey s.responses u.id (v ++ [t]) }, Outcome.savedError) := by
  unfold receive_response
  simp only [hv]
  rw [if_neg (show ¬ (v ++ [t]).length <
      ({ s with responses := setKey s.responses u.id (v ++ [t]) } : BotState).questions.length
      by simp; omega)]

/-- A successfully persisted final answer: exactly one row is appended to
the active spreadsheet, carrying the session's answers plus the final
text, and the session is removed.  The question catalog and the period
registry are untouched. -/
theorem receive_response_final (s : BotState) (u : TgUser) (chat : Nat) (t : String)
    (now : Nat) (v : List String) (sid : String)
    (hv : lookupKey s.responses u.id = some v)
    (hlen : s.questions.length ≤ v.length + 1)
    (hsid : s.current_spreadsheet_id = some sid) :
    ((receive_response s u chat t now true true true true).1).sheet_rows
        = s.sheet_rows ++ [(sid, mkRow u now (v ++ [t]))] ∧
    lookupKey ((receive_response s u chat t now true true true true).1).responses u.id = none ∧
    ((receive_response s u chat t now true true true true).1).questions = s.questions ∧
    ((receive_response s u chat t now true true true true).1).current_spreadsheet_id
        = s.current_spreadsheet_id ∧
    ((receive_response s u chat t now true true true true).1).week_count = s.week_count ∧
    ((receive_response s u chat t now true true true true).1).spreadsheet_ids
        = s.spreadsheet_ids ∧
    ((receive_response s u chat t now true true true true).1).last_sheet_creation_date
        = s.last_sheet_creation_date := by
  unfold receive_response
  simp only [hv]
  rw [if_neg (show ¬ (v ++ [t]).length <
      ({ s with responses := setKey s.responses u.id (v ++ [t]) } : BotState).questions.length
      by simp; omega)]
  simp only [hsid]
  cases hp : (lookupKey s.user_data_prev u.id).join with
  | none =>
    simp [hp, lookupKey_eraseKey_self]
  | some m =>
    simp [hp, lookupKey_eraseKey_self]

/-- A participant used in concrete scenarios. -/
def demoUser : TgUser := { id := 9, first_name := "Ann", last_name := "Lee", username := "ann" }

/-- C9: an inbound text for a participant with no session yields the
`NotStarted` outcome (the participant is prompted to begin) and no state
is mutated: the handler returns the input state unchanged, whatever the
outcomes of the external calls would have been. -/
theorem claim_C9_not_started (s : BotState) (u : TgUser) (chat : Nat) (t : String)
    (now : Nat) (sv d1 d2 so : Bool) (h : lookupKey s.responses u.id = none) :
    receive_response s u chat t now sv d1 d2 so = (s, Outcome.notStarted) :=
  receive_response_no_session s u chat t now sv d1 d2 so h

/-- Witness for C9 at a concrete input. -/
theorem claim_C9_not_started_witness :
    lookupKey blankState.responses 9 = none ∧
    receive_response blankState demoUser 9 "hi" 5 true true true true
      = (blankState, Outcome.notStarted) :=
  ⟨rfl, claim_C9_not_started blankState demoUser 9 "hi" 5 true true true true rfl⟩

/-- C10: a `back_to_question_k` press by a participant with no session
faults on the `responses[user_id]` read before any assignment: no session
is created and the whole state (every participant's session included) is
returned unchanged. -/
theorem claim_C10_back_without_session (s : BotState) (user chat : Nat) (k : Int)
    (qm : Nat) (d1 d2 so : Bool) (h : lookupKey s.responses user = none) :
    button_back_to_question s user chat k qm d1 d2 so = (s, Outcome.keyError) := by
  unfold button_back_to_question
  simp only [h]

/-- Witness for C10 at a concrete input. -/
theorem claim_C10_back_without_session_witness :
    lookupKey blankState.responses 9 = none ∧
    button_back_to_question blankState 9 9 2 77 true true true
      = (blankState, Outcome.keyError) :=
  ⟨rfl, claim_C10_back_without_session blankState 9 9 2 77 true true true rfl⟩

/-- C1 (amended): committing a submission never rotates the period.
`receive_response` leaves `week_count`, `spreadsheet_ids`,
`last_sheet_creation_date` and `current_spreadsheet_id` untouched, and
any row it appends goes to the table that was already active — there is
no staleness check at commit time. -/
theorem claim_C1_no_rotation_at_commit (s : BotState) (u : TgUser) (chat : Nat) (t : String)
    (now : Nat) (sv d1 d2 so : Bool) :
    ((receive_response s u chat t now sv d1 d2 so).1).week_count = s.week_count ∧
    ((receive_response s u chat t now sv d1 d2 so).1).spreadsheet_ids = s.spreadsheet_ids ∧
    ((receive_response s u chat t now sv d1 d2 so).1).last_sheet_creation_date
        = s.last_sheet_creation_date ∧
    ((receive_response s u chat t now sv d1 d2 so).1).current_spreadsheet_id
        = s.current_spreadsheet_id ∧
    (((receive_response s u chat t now sv d1 d2 so).1).sheet_rows = s.sheet_rows ∨
      ∃ sid row, s.current_spreadsheet_id = some sid ∧
        ((receive_response s u chat t now sv d1 d2 so).1).sheet_rows
          = s.sheet_rows ++ [(sid, row)]) := by
  unfold receive_response
  cases hl : lookupKey s.responses u.id with
  | none => simp
  | some v =>
    dsimp only
    by_cases hlt : (v ++ [t]).length < s.questions.length
    · rw [if_pos hlt]
      cases d1 with
      | false => simp
      | true =>
        have hfr := send_question_frame
          { s with responses := setKey s.responses u.id (v ++ [t]) }
          u.id chat (Int.ofNat (v ++ [t]).length) d2 so
        simp only [if_true]
        exact ⟨hfr.2.2.2.2.1, hfr.2.2.2.2.2.1, hfr.2.2.2.2.2.2, hfr.2.2.2.1,
          Or.inl hfr.2.2.1⟩
    · rw [if_neg hlt]
      cases sv with
      | false => simp
      | true =>
        cases hc : s.current_spreadsheet_id with
        | none => simp [hc]
        | some sid =>
          simp only [hc]
          cases d1 with
          | false => exact ⟨rfl, rfl, rfl, rfl, Or.inr ⟨sid, mkRow u now (v ++ [t]), rfl, rfl⟩⟩
          | true =>
            cases hp : (lookupKey s.user_data_prev u.id).join with
            | none =>
              cases so with
              | false =>
                simp only [hp]
                exact ⟨rfl, rfl, rfl, rfl, Or.inr ⟨sid, mkRow u now (v ++ [t]), rfl, rfl⟩⟩
              | true =>
                simp only [hp]
                exact ⟨rfl, rfl, rfl, rfl, Or.inr ⟨sid, mkRow u now (v ++ [t]), rfl, rfl⟩⟩
            | some m =>
              cases d2 with
              | false =>
                simp only [hp]
                exact ⟨rfl, rfl, rfl, rfl, Or.inr ⟨sid, mkRow u now (v ++ [t]), rfl, rfl⟩⟩
              | true =>
                cases so with
                | false =>
                  simp only [hp]
                  exact ⟨rfl, rfl, rfl, rfl, Or.inr ⟨sid, mkRow u now (v ++ [t]), rfl, rfl⟩⟩
                | true =>
                  simp only [hp]
                  exact ⟨rfl, rfl, rfl, rfl, Or.inr ⟨sid, mkRow u now (v ++ [t]), rfl, rfl⟩⟩

/-- A concrete state whose active period is 8 days old and where
participant 9 is one answer away from completing the form. -/
def c1State : BotState :=
  { bootState "W1" 0 with responses := [(9, ["a", "b", "c"])] }

/-- C1 counterexample: with the active period created at time 0 and a
submission committed at time 691200 (8 days later, beyond the 7-day
threshold of 604800 seconds), no new period is created: the week counter
and period registry are unchanged and the row is appended to the old
table `W1`, not to any fresh table — refuting the claim that a stale
period is rotated before the row append. -/
theorem claim_C1_counterexample :
    c1State.last_sheet_creation_date = some 0 ∧
    691200 > 7 * 86400 ∧
    ((receive_response c1State demoUser 9 "d" 691200 true true true true).1).week_count
        = c1State.week_count ∧
    ((receive_response c1State demoUser 9 "d" 691200 true true true true).1).spreadsheet_ids
        = c1State.spreadsheet_ids ∧
    ((receive_response c1State demoUser 9 "d" 691200 true true true true).1).sheet_rows
        = [("W1", mkRow demoUser 691200 ["a", "b", "c", "d"])] ∧
    ((receive_response c1State demoUser 9 "d" 691200 true true true true).1).current_spreadsheet_id
        = some "W1" := by
  refine ⟨rfl, by norm_num, rfl, rfl, rfl, rfl⟩

/-- C3 (amended): when persisting a completed submission fails, the
session is preserved with all its answers (final one included) and no row
is written; but the only retry path is another inbound text message,
which is appended to the session before the length check, so the
successful retry appends exactly one row whose values are the original
answers plus the retry text — not the original answers alone. -/
theorem claim_C3_session_kept_retry_appends (s : BotState) (u : TgUser) (chat : Nat)
    (t t2 : String) (now now2 : Nat) (v : List String) (sid : String)
    (hv : lookupKey s.responses u.id = some v)
    (hlen : s.questions.length = v.length + 1)
    (hsid : s.current_spreadsheet_id = some sid) :
    lookupKey ((receive_response s u chat t now false true true true).1).responses u.id
        = some (v ++ [t]) ∧
    ((receive_response s u chat t now false true true true).1).sheet_rows = s.sheet_rows ∧
    ((receive_response (receive_response s u chat t now false true true true).1
        u chat t2 now2 true true true true).1).sheet_rows
      = s.sheet_rows ++ [(sid, mkRow u now2 ((v ++ [t]) ++ [t2]))] ∧
    lookupKey ((receive_response (receive_response s u chat t now false true true true).1
        u chat t2 now2 true true true true).1).responses u.id = none := by
  have h1 := receive_response_savefail s u chat t now true true true v hv (le_of_eq hlen)
  rw [h1]
  refine ⟨lookupKey_setKey_self _ _ _, rfl, ?_, ?_⟩
  · have hf := receive_response_final
      { s with responses := setKey s.responses u.id (v ++ [t]) } u chat t2 now2
      (v ++ [t]) sid (lookupKey_setKey_self _ _ _) (by simp; omega) hsid
    exact hf.1
  · have hf := receive_response_final
      { s with responses := setKey s.responses u.id (v ++ [t]) } u chat t2 now2
      (v ++ [t]) sid (lookupKey_setKey_self _ _ _) (by simp; omega) hsid
    exact hf.2.1

/-- Witness for C3 (amended) at a concrete input. -/
theorem claim_C3_session_kept_retry_appends_witness :
    lookupKey c1State.responses 9 = some ["a", "b", "c"] ∧
    c1State.questions.length = 4 ∧
    c1State.current_spreadsheet_id = some "W1" ∧
    (lookupKey ((receive_response c1State demoUser 9 "d" 100 false true true true).1).responses 9
        = some ["a", "b", "c", "d"] ∧
      ((receive_response c1State demoUser 9 "d" 100 false true true true).1).sheet_rows
        = c1State.sheet_rows ∧
      ((receive_response (receive_response c1State demoUser 9 "d" 100 false true true true).1
          demoUser 9 "r" 200 true true true true).1).sheet_rows
        = c1State.sheet_rows ++ [("W1", mkRow demoUser 200 (["a", "b", "c"] ++ ["d"] ++ ["r"]))] ∧
      lookupKey ((receive_response (receive_response c1State demoUser 9 "d" 100 false true true true).1
          demoUser 9 "r" 200 true true true true).1).responses 9 = none) :=
  ⟨rfl, rfl, rfl,
    claim_C3_session_kept_retry_appends c1State demoUser 9 "d" "r" 100 200
      ["a", "b", "c"] "W1" rfl rfl rfl⟩

/-- C3 counterexample: after a failed commit the participant's only retry
path is another text; with session `["a","b","c","d"]` held after the
failure, a retry text `"retry"` commits a single row carrying five answer
values — not the original four — refuting the claim that the retried row's
values equal the original answers with no extra values. -/
theorem claim_C3_counterexample :
    lookupKey ((receive_response c1State demoUser 9 "d" 100 false true true true).1).responses 9
        = some ["a", "b", "c", "d"] ∧
    ((receive_response (receive_response c1State demoUser 9 "d" 100 false true true true).1
        demoUser 9 "retry" 200 true true true true).1).sheet_rows
      = [("W1", mkRow demoUser 200 ["a", "b", "c", "d", "retry"])] ∧
    (mkRow demoUser 200 ["a", "b", "c", "d", "retry"]).answers ≠ ["a", "b", "c", "d"] := by
  refine ⟨rfl, rfl, by decide⟩

/-- C4 (amended): the back-navigation handler performs no bounds check on
the transported target index.  For a target at or above the catalog
length (with the session no longer than the target) the question lookup
raises an uncaught index error after the (no-op) truncation, leaving the
answers unchanged; for a negative target within Python range the handler
succeeds: Python slice semantics silently truncate the answers from the
end and a question is re-shown.  No locally handled `InvalidNavigation`
condition exists, and a negative target does change the session's
answers. -/
theorem claim_C4_no_bounds_check (s : BotState) (user chat qm : Nat) (k : Int)
    (v : List String) (hv : lookupKey s.responses user = some v) :
    ((s.questions.length : Int) ≤ k → (v.length : Int) ≤ k →
      (button_back_to_question s user chat k qm true true true).2 = Outcome.indexError ∧
      lookupKey ((button_back_to_question s user chat k qm true true true).1).responses user
        = some v) ∧
    (k < 0 → (-k).toNat ≤ s.questions.length →
      (button_back_to_question s user chat k qm true true true).2 = Outcome.ok ∧
      lookupKey ((button_back_to_question s user chat k qm true true true).1).responses user
        = some (v.take (v.length - (-k).toNat))) := by
  constructor
  · intro hk hvk
    have h0 : (0 : Int) ≤ k := le_trans (Int.ofNat_nonneg _) hk
    have hg : pyGet s.questions k = none := pyGet_nonneg_ge _ _ h0 hk
    have ht : pyTake v k = v := pyTake_of_length_le _ _ h0 hvk
    unfold button_back_to_question
    simp only [hv]
    simp only [if_true]
    unfold send_question
    simp only [hg, ht]
    exact ⟨trivial, lookupKey_setKey_self _ _ _⟩
  · intro hneg hle
    obtain ⟨q, hq⟩ := pyGet_neg_some s.questions k hneg hle
    have h0 : ¬ (0 : Int) ≤ k := by omega
    have ht : pyTake v k = v.take (v.length - (-k).toNat) := by
      unfold pyTake
      rw [if_neg h0]
    unfold button_back_to_question
    simp only [hv]
    simp only [if_true]
    unfold send_question
    simp only [hq, ht]
    cases hp : (lookupKey s.user_data_prev user).join with
    | none => exact ⟨rfl, lookupKey_setKey_self _ _ _⟩
    | some m => exact ⟨rfl, lookupKey_setKey_self _ _ _⟩

/-- A concrete state where participant 9 has answered two questions. -/
def c4State : BotState :=
  { bootState "W1" 0 with responses := [(9, ["a", "b"])] }

/-- Witness for C4 (amended) at concrete inputs, exercising both the
too-large and the negative target cases. -/
theorem claim_C4_no_bounds_check_witness :
    lookupKey c4State.responses 9 = some ["a", "b"] ∧
    (((c4State.questions.length : Int) ≤ 7 → ((["a", "b"] : List String).length : Int) ≤ 7 →
      (button_back_to_question c4State 9 9 7 77 true true true).2 = Outcome.indexError ∧
      lookupKey ((button_back_to_question c4State 9 9 7 77 true true true).1).responses 9
        = some ["a", "b"]) ∧
    ((7 : Int) < 0 → (-(7 : Int)).toNat ≤ c4State.questions.length →
      (button_back_to_question c4State 9 9 7 77 true true true).2 = Outcome.ok ∧
      lookupKey ((button_back_to_question c4State 9 9 7 77 true true true).1).responses 9
        = some ((["a", "b"] : List String).take ((["a", "b"] : List String).length - (-(7 : Int)).toNat)))) :=
  ⟨rfl, claim_C4_no_bounds_check c4State 9 9 77 7 ["a", "b"] rfl⟩

/-- C4 counterexample: pressing a back button whose payload parses to the
out-of-range target `-1` (outside `[0, N)`) is not rejected: the handler
completes with outcome `ok` (a question is re-shown) and the session's
answers change from `["a","b"]` to `["a"]` — refuting the claim that an
out-of-range target leaves the answers unchanged. -/
theorem claim_C4_counterexample :
    (button_back_to_question c4State 9 9 (-1) 77 true true true).2 = Outcome.ok ∧
    lookupKey ((button_back_to_question c4State 9 9 (-1) 77 true true true).1).responses 9
        = some ["a"] ∧
    (some ["a"] : Option (List String)) ≠ some ["a", "b"] := by
  refine ⟨rfl, rfl, by decide⟩

theorem runActions_cons (s : BotState) (a : Action) (l : List Action) :
    runActions s (a :: l) = runActions (stepAction s a) l := rfl

theorem runActions_append (s : BotState) (l1 l2 : List Action) :
    runActions s (l1 ++ l2) = runActions (runActions s l1) l2 := by
  simp [runActions]

theorem runActions_singleton (s : BotState) (a : Action) :
    runActions s [a] = stepAction s a := rfl

/-- A forward text-message action with all transport and storage calls
succeeding. -/
def mkText (u : TgUser) (chat now : Nat) (t : String) : Action :=
  Action.textMessage u chat t now true true true true

/-- Pressing `start_form` resets the participant's session to the empty
answer list; catalog, sheet and period state are untouched. -/
theorem button_start_form_facts (s : BotState) (user chat qm : Nat) :
    lookupKey ((button_start_form s user chat qm true true true).1).responses user = some [] ∧
    ((button_start_form s user chat qm true true true).1).questions = s.questions ∧
    ((button_start_form s user chat qm true true true).1).sheet_rows = s.sheet_rows ∧
    ((button_start_form s user chat qm true true true).1).current_spreadsheet_id
      = s.current_spreadsheet_id := by
  unfold button_start_form send_question
  simp only [if_true]
  have hj : (lookupKey (setKey s.user_data_prev user (none : Option Nat)) user).join = none := by
    rw [lookupKey_setKey_self]
    rfl
  cases hg : pyGet s.questions 0 with
  | none =>
    simp only [hg]
    exact ⟨lookupKey_setKey_self _ _ _, by trivial, by trivial, by trivial⟩
  | some q =>
    simp only [hg, hj]
    exact ⟨lookupKey_setKey_self _ _ _, by trivial, by trivial, by trivial⟩

/-- An in-range back navigation truncates the session to the target
length; catalog, sheet and period state are untouched. -/
theorem back_step_facts (s : BotState) (user chat : Nat) (j : Nat) (qm : Nat) (v : List String)
    (hv : lookupKey s.responses user = some v)
    (hj : j < s.questions.length) :
    lookupKey ((button_back_to_question s user chat (Int.ofNat j) qm true true true).1).responses
        user = some (v.take j) ∧
    ((button_back_to_question s user chat (Int.ofNat j) qm true true true).1).questions
        = s.questions ∧
    ((button_back_to_question s user chat (Int.ofNat j) qm true true true).1).sheet_rows
        = s.sheet_rows ∧
    ((button_back_to_question s user chat (Int.ofNat j) qm true true true).1).current_spreadsheet_id
        = s.current_spreadsheet_id := by
  obtain ⟨q, hq⟩ := pyGet_ofNat_lt s.questions j hj
  unfold button_back_to_question send_question
  simp only [hv, if_true, hq, pyTake_ofNat]
  cases hp : (lookupKey s.user_data_prev user).join with
  | none =>
    simp only [hp]
    exact ⟨lookupKey_setKey_self _ _ _, by trivial, by trivial, by trivial⟩
  | some m =>
    simp only [hp]
    exact ⟨lookupKey_setKey_self _ _ _, by trivial, by trivial, by trivial⟩

/-- Running a block of non-final answers appends them in order to the
session; catalog, sheet and period state are untouched. -/
theorem run_texts_partial (u : TgUser) (chat now : Nat) :
    ∀ (ts : List String) (s : BotState) (v : List String),
      lookupKey s.responses u.id = some v →
      v.length + ts.length < s.questions.length →
      lookupKey (runActions s (ts.map (mkText u chat now))).responses u.id = some (v ++ ts) ∧
      (runActions s (ts.map (mkText u chat now))).questions = s.questions ∧
      (runActions s (ts.map (mkText u chat now))).sheet_rows = s.sheet_rows ∧
      (runActions s (ts.map (mkText u chat now))).current_spreadsheet_id
        = s.current_spreadsheet_id := by
  intro ts
  induction ts with
  | nil =>
    intro s v hv _
    simpa [runActions] using hv
  | cons t ts ih =>
    intro s v hv hlen
    have hlen1 : v.length + 1 < s.questions.length := by
      simp only [List.length_cons] at hlen
      omega
    have hstep := receive_response_step s u chat t now v hv hlen1
    have hrec := ih ((receive_response s u chat t now true true true true).1) (v ++ [t])
      hstep.1 (by rw [hstep.2.1]; simp only [List.length_cons] at hlen; simp; omega)
    have hrw : runActions s ((t :: ts).map (mkText u chat now))
        = runActions ((receive_response s u chat t now true true true true).1)
            (ts.map (mkText u chat now)) := rfl
    rw [hrw]
    refine ⟨?_, ?_, ?_, ?_⟩
    · rw [hrec.1]
      simp
    · rw [hrec.2.1, hstep.2.1]
    · rw [hrec.2.2.1, hstep.2.2.1]
    · rw [hrec.2.2.2, hstep.2.2.2]

/-- The inbound sequence of C2: begin, `k` answers, back-navigate to `j`,
further answers, final answer — all external calls succeeding. -/
def c2Actions (u : TgUser) (chat qm qm2 now : Nat) (j : Nat) (as bs : List String)
    (bLast : String) : List Action :=
  Action.startForm u.id chat qm true true true ::
    (as.map (mkText u chat now) ++
      (Action.backToQuestion u.id chat (Int.ofNat j) qm2 true true true ::
        (bs.map (mkText u chat now) ++ [mkText u chat now bLast])))

/-- C2: for every sequence begin → k answers (k < N) → back(j) (j ≤ k) →
further answers up to completion, the committed row's answer values are
exactly the answers in effect at completion — the kept prefix of length j
followed by the re-entered answers — so answers discarded by the
truncation never appear in the row, and the session is gone afterwards. -/
theorem claim_C2_back_navigation_row (s : BotState) (u : TgUser) (chat qm qm2 now : Nat)
    (j : Nat) (as bs : List String) (bLast : String) (sid : String)
    (hsid : s.current_spreadsheet_id = some sid)
    (hk : as.length < s.questions.length)
    (hj : j ≤ as.length)
    (hbs : j + bs.length + 1 = s.questions.length) :
    (runActions s (c2Actions u chat qm qm2 now j as bs bLast)).sheet_rows
        = s.sheet_rows ++ [(sid, mkRow u now (as.take j ++ (bs ++ [bLast])))] ∧
    lookupKey (runActions s (c2Actions u chat qm qm2 now j as bs bLast)).responses u.id
        = none := by
  have h0 := button_start_form_facts s u.id chat qm
  have h1 := run_texts_partial u chat now as
      ((button_start_form s u.id chat qm true true true).1) [] h0.1
      (by rw [h0.2.1]; simpa using hk)
  have h2 := back_step_facts
      (runActions ((button_start_form s u.id chat qm true true true).1)
        (as.map (mkText u chat now))) u.id chat j qm2 ([] ++ as) h1.1
      (by rw [h1.2.1, h0.2.1]; omega)
  have h3 := run_texts_partial u chat now bs
      ((button_back_to_question
          (runActions ((button_start_form s u.id chat qm true true true).1)
            (as.map (mkText u chat now))) u.id chat (Int.ofNat j) qm2 true true true).1)
      (([] ++ as).take j) h2.1
      (by
        rw [h2.2.1, h1.2.1, h0.2.1]
        have : (([] ++ as).take j).length = j := by
          simp [List.length_take]
          omega
        omega)
  have hsid3 : (runActions
      ((button_back_to_question
          (runActions ((button_start_form s u.id chat qm true true true).1)
            (as.map (mkText u chat now))) u.id chat (Int.ofNat j) qm2 true true true).1)
      (bs.map (mkText u chat now))).current_spreadsheet_id = some sid := by
    rw [h3.2.2.2, h2.2.2.2, h1.2.2.2, h0.2.2.2]
    exact hsid
  have hlen3 : (runActions
      ((button_back_to_question
          (runActions ((button_start_form s u.id chat qm true true true).1)
            (as.map (mkText u chat now))) u.id chat (Int.ofNat j) qm2 true true true).1)
      (bs.map (mkText u chat now))).questions.length
      ≤ (([] ++ as).take j ++ bs).length + 1 := by
    rw [h3.2.1, h2.2.1, h1.2.1, h0.2.1]
    have : (([] ++ as).take j).length = j := by
      simp [List.length_take]
      omega
    simp only [List.length_append, this]
    omega
  have hf := receive_response_final
      (runActions
        ((button_back_to_question
            (runActions ((button_start_form s u.id chat qm true true true).1)
              (as.map (mkText u chat now))) u.id chat (Int.ofNat j) qm2 true true true).1)
        (bs.map (mkText u chat now))) u chat bLast now (([] ++ as).take j ++ bs) sid
      h3.1 hlen3 hsid3
  have hrw : runActions s (c2Actions u chat qm qm2 now j as bs bLast)
      = (receive_response
          (runActions
            ((button_back_to_question
                (runActions ((button_start_form s u.id chat qm true true true).1)
                  (as.map (mkText u chat now))) u.id chat (Int.ofNat j) qm2 true true true).1)
            (bs.map (mkText u chat now))) u chat bLast now true true true true).1 := by
    simp only [c2Actions, runActions_cons, runActions_append, runActions_singleton]
    rfl
  rw [hrw]
  constructor
  · rw [hf.1, h3.2.2.1, h2.2.2.1, h1.2.2.1, h0.2.2.1]
    simp
  · exact hf.2.1

/-- Witness for C2 at a concrete input: four questions, two answers, back
to index 1, then three fresh answers. -/
theorem claim_C2_back_navigation_row_witness :
    (bootState "W1" 0).current_spreadsheet_id = some "W1" ∧
    (["a1", "a2"] : List String).length < (bootState "W1" 0).questions.length ∧
    1 ≤ (["a1", "a2"] : List String).length ∧
    1 + (["b2", "b3"] : List String).length + 1 = (bootState "W1" 0).questions.length ∧
    ((runActions (bootState "W1" 0)
        (c2Actions demoUser 9 70 71 500 1 ["a1", "a2"] ["b2", "b3"] "b4")).sheet_rows
      = (bootState "W1" 0).sheet_rows
          ++ [("W1", mkRow demoUser 500 ((["a1", "a2"] : List String).take 1
                ++ (["b2", "b3"] ++ ["b4"])))] ∧
      lookupKey (runActions (bootState "W1" 0)
        (c2Actions demoUser 9 70 71 500 1 ["a1", "a2"] ["b2", "b3"] "b4")).responses demoUser.id
        = none) :=
  ⟨rfl, by decide, by decide, by decide,
    claim_C2_back_navigation_row (bootState "W1" 0) demoUser 9 70 71 500 1
      ["a1", "a2"] ["b2", "b3"] "b4" "W1" rfl (by decide) (by decide) (by decide)⟩

/-- The rows of the queried participant, in row order. -/
def matchingRows (uid : Nat) (rows : List StoredRow) : List StoredRow :=
  rows.filter (fun r => r.userId == uid)

/-- The running best of the `see_answers` loop, viewed as a (virtual)
stored row of the queried participant. -/
def accRows (uid : Nat) : Option (String × Nat × List String) → List StoredRow
  | none => []
  | some (n, t, a) => [{ userId := uid, name := n, timestamp := t, answers := a }]

/-- Characterization of the `see_answers` selection loop: it returns
`none` exactly when no candidate exists, and otherwise its result carries
the maximum timestamp among the candidates and coincides with the FIRST
candidate attaining that timestamp (a strictly greater timestamp is
required to displace the running best). -/
theorem selectLatest_spec (uid : Nat) (rows : List StoredRow) :
    ∀ acc : Option (String × Nat × List String),
      (selectLatest uid rows acc = none → accRows uid acc ++ matchingRows uid rows = []) ∧
      (∀ n t a, selectLatest uid rows acc = some (n, t, a) →
        (∀ r ∈ accRows uid acc ++ matchingRows uid rows, r.timestamp ≤ t) ∧
        (accRows uid acc ++ matchingRows uid rows).find? (fun r => r.timestamp == t)
          = some { userId := uid, name := n, timestamp := t, answers := a }) := by
  induction rows with
  | nil =>
    intro acc
    constructor
    · intro h
      cases acc with
      | none => simp [matchingRows, accRows]
      | some x => simp [selectLatest] at h
    · intro n t a h
      cases acc with
      | none => simp [selectLatest] at h
      | some x =>
        obtain ⟨n0, t0, a0⟩ := x
        simp only [selectLatest, Option.some.injEq, Prod.mk.injEq] at h
        obtain ⟨hn, ht, ha⟩ := h
        subst hn
        subst ht
        subst ha
        constructor
        · intro r hr
          simp [accRows, matchingRows] at hr
          subst hr
          exact le_refl _
        · simp [accRows, matchingRows, List.find?]
  | cons r rs ih =>
    intro acc
    by_cases hru : r.userId = uid
    · have hm : matchingRows uid (r :: rs) = r :: matchingRows uid rs := by
        simp [matchingRows, List.filter_cons, hru]
      have hvr : accRows uid (some (r.name, r.timestamp, r.answers)) = [r] := by
        simp only [accRows]
        cases r
        simp_all
      cases acc with
      | none =>
        have hsel : selectLatest uid (r :: rs) none
            = selectLatest uid rs (some (r.name, r.timestamp, r.answers)) := by
          simp [selectLatest, hru]
        have hI := ih (some (r.name, r.timestamp, r.answers))
        constructor
        · intro h
          rw [hsel] at h
          have h2 := hI.1 h
          rw [hvr] at h2
          simp at h2
        · intro n t a h
          rw [hsel] at h
          have h2 := hI.2 n t a h
          rw [hvr] at h2
          rw [hm]
          exact h2
      | some x =>
        obtain ⟨n0, t0, a0⟩ := x
        by_cases hlt : t0 < r.timestamp
        · have hsel : selectLatest uid (r :: rs) (some (n0, t0, a0))
              = selectLatest uid rs (some (r.name, r.timestamp, r.answers)) := by
            simp [selectLatest, hru, hlt]
          have hI := ih (some (r.name, r.timestamp, r.answers))
          constructor
          · intro h
            rw [hsel] at h
            have h2 := hI.1 h
            rw [hvr] at h2
            simp at h2
          · intro n t a h
            rw [hsel] at h
            have h2 := hI.2 n t a h
            rw [hvr] at h2
            rw [hm]
            have hrt : r.timestamp ≤ t := h2.1 r (by simp)
            have ht0t : t0 < t := lt_of_lt_of_le hlt hrt
            constructor
            · intro r' hr'
              simp only [accRows, List.cons_append, List.nil_append, List.mem_cons] at hr'
              rcases hr' with h' | h'
              · subst h'
                exact le_of_lt ht0t
              · exact h2.1 r' (by simpa using h')
            · have hbt : (t0 == t) = false := by
                simp
                omega
              simp only [accRows, List.cons_append, List.nil_append]
              rw [List.find?_cons_of_neg _ (by simpa using hbt)]
              simpa using h2.2
        · have hsel : selectLatest uid (r :: rs) (some (n0, t0, a0))
              = selectLatest uid rs (some (n0, t0, a0)) := by
            simp [selectLatest, hru, hlt]
          have hI := ih (some (n0, t0, a0))
          constructor
          · intro h
            rw [hsel] at h
            have h2 := hI.1 h
            simp [accRows] at h2
          · intro n t a h
            rw [hsel] at h
            have h2 := hI.2 n t a h
            rw [hm]
            have hv0 : t0 ≤ t := by
              have := h2.1 { userId := uid, name := n0, timestamp := t0, answers := a0 }
                (by simp [accRows])
              simpa using this
            have hrle : r.timestamp ≤ t0 := le_of_not_lt hlt
            constructor
            · intro r' hr'
              simp only [accRows, List.cons_append, List.nil_append, List.mem_cons] at hr'
              rcases hr' with h' | h' | h'
              · subst h'
                simpa using hv0
              · subst h'
                exact le_trans hrle hv0
              · exact h2.1 r' (by simp [accRows, h'])
            · by_cases h0t : t0 = t
              · have hb : (t0 == t) = true := by simpa using h0t
                simp only [accRows, List.cons_append, List.nil_append] at h2 ⊢
                rw [List.find?_cons_of_pos _ (by simpa using hb)]
                rw [List.find?_cons_of_pos _ (by simpa using hb)] at h2
                exact h2.2
              · have hbt : (t0 == t) = false := by simpa using h0t
                have hrneq : (r.timestamp == t) = false := by
                  simp only [beq_eq_false_iff_ne, ne_eq]
                  intro heq
                  apply h0t
                  omega
                simp only [accRows, List.cons_append, List.nil_append] at h2 ⊢
                rw [List.find?_cons_of_neg _ (by simpa using hbt)]
                rw [List.find?_cons_of_neg _ (by simpa using hbt)] at h2
                rw [List.find?_cons_of_neg _ (by simpa using hrneq)]
                exact h2.2
    · have hm : matchingRows uid (r :: rs) = matchingRows uid rs := by
        simp [matchingRows, List.filter_cons, hru]
      have hsel : selectLatest uid (r :: rs) acc = selectLatest uid rs acc := by
        simp [selectLatest, hru]
      constructor
      · intro h
        rw [hsel] at h
        rw [hm]
        exact (ih acc).1 h
      · intro n t a h
        rw [hsel] at h
        rw [hm]
        exact (ih acc).2 n t a h

/-- C5 (amended): `see_answers` returns, among the queried participant's
rows, data carrying the maximum timestamp; when several rows tie on that
maximum, the EARLIEST such row in row order is the one returned (a row
displaces the running best only on a strictly greater timestamp). -/
theorem claim_C5_latest_earliest_tie (rows : List StoredRow) (uid : Nat)
    (n : String) (t : Nat) (a : List String)
    (h : see_answers rows uid = some (n, t, a)) :
    (∀ r ∈ matchingRows uid (rows.drop 1), r.timestamp ≤ t) ∧
    (matchingRows uid (rows.drop 1)).find? (fun r => r.timestamp == t)
      = some { userId := uid, name := n, timestamp := t, answers := a } := by
  have := (selectLatest_spec uid (rows.drop 1) none).2 n t a h
  simpa [accRows] using this

/-- Stored rows with two tying submissions of participant 7. -/
def c5Rows : List StoredRow :=
  [{ userId := 0, name := "header", timestamp := 0, answers := [] },
   { userId := 7, name := "A", timestamp := 10, answers := ["x"] },
   { userId := 7, name := "B", timestamp := 10, answers := ["y"] }]

/-- Witness for C5 (amended) at a concrete input. -/
theorem claim_C5_latest_earliest_tie_witness :
    see_answers c5Rows 7 = some ("A", 10, ["x"]) ∧
    ((∀ r ∈ matchingRows 7 (c5Rows.drop 1), r.timestamp ≤ 10) ∧
      (matchingRows 7 (c5Rows.drop 1)).find? (fun r => r.timestamp == 10)
        = some { userId := 7, name := "A", timestamp := 10, answers := ["x"] }) :=
  ⟨rfl, claim_C5_latest_earliest_tie c5Rows 7 "A" 10 ["x"] rfl⟩

/-- C5 counterexample: participant 7 has two rows with the equal maximum
timestamp 10; the claim says the later row (`B`) is returned, but
`see_answers` returns the earlier row (`A`). -/
theorem claim_C5_counterexample :
    see_answers c5Rows 7 = some ("A", 10, ["x"]) ∧
    see_answers c5Rows 7 ≠ some ("B", 10, ["y"]) := by
  refine ⟨rfl, by decide⟩

/-- The message-lifecycle invariant for one participant: either no bot
prompt message is live, or exactly one is and it is the one recorded in
the participant's `prev_message_id` cell. -/
def cursorOk (s : BotState) (user : Nat) : Prop :=
  s.live_messages = [] ∨
    ∃ m, s.live_messages = [m] ∧ (lookupKey s.user_data_prev user).join = some m

theorem cursorOk_live_nil (s : BotState) (user : Nat) (h : cursorOk s user)
    (hp : (lookupKey s.user_data_prev user).join = none) : s.live_messages = [] := by
  rcases h with h | ⟨m, hm, ht⟩
  · exact h
  · rw [hp] at ht
    cases ht

theorem cursorOk_erase_tracked (s : BotState) (user m : Nat) (h : cursorOk s user)
    (hp : (lookupKey s.user_data_prev user).join = some m) :
    s.live_messages.erase m = [] := by
  rcases h with h | ⟨m', hm', ht⟩
  · simp [h]
  · rw [hp] at ht
    injection ht with hmm
    subst hmm
    simp [hm']

theorem cursorOk_erase (s : BotState) (user x : Nat) (h : cursorOk s user) :
    cursorOk { s with live_messages := s.live_messages.erase x } user := by
  rcases h with h | ⟨m, hm, ht⟩
  · left
    simp [h]
  · by_cases hxm : x = m
    · left
      simp [hm, hxm]
    · right
      refine ⟨m, ?_, ht⟩
      simp [hm, List.erase_cons, Ne.symm hxm]

/-- `send_question` preserves the cursor invariant when the deletion of
the previous prompt succeeds (whether or not the send succeeds). -/
theorem send_question_cursor (s : BotState) (user chat : Nat) (k : Int) (so : Bool)
    (h : cursorOk s user) : cursorOk ((send_question s user chat k true so).1) user := by
  unfold send_question
  cases hg : pyGet s.questions k with
  | none => exact h
  | some q =>
    cases hp : (lookupKey s.user_data_prev user).join with
    | none =>
      have hlive := cursorOk_live_nil s user h hp
      cases so with
      | false =>
        simp only [hp]
        exact Or.inl hlive
      | true =>
        simp only [hp, if_true]
        right
        refine ⟨s.next_message_id, ?_, ?_⟩
        · simp [hlive]
        · rw [lookupKey_setKey_self]
          rfl
    | some m =>
      have hl1 := cursorOk_erase_tracked s user m h hp
      cases so with
      | false =>
        simp only [hp, if_true]
        exact Or.inl hl1
      | true =>
        simp only [hp, if_true]
        right
        refine ⟨s.next_message_id, ?_, ?_⟩
        · simp [hl1]
        · rw [lookupKey_setKey_self]
          rfl

/-- `receive_response` preserves the cursor invariant when its message
deletions succeed, whatever the storage and send outcomes. -/
theorem receive_response_cursor (s : BotState) (u : TgUser) (chat : Nat) (t : String)
    (now : Nat) (sv so : Bool) (h : cursorOk s u.id) :
    cursorOk ((receive_response s u chat t now sv true true so).1) u.id := by
  unfold receive_response
  cases hl : lookupKey s.responses u.id with
  | none => exact h
  | some v =>
    dsimp only
    by_cases hlt : (v ++ [t]).length < s.questions.length
    · rw [if_pos hlt]
      simp only [if_true]
      exact send_question_cursor _ u.id chat _ so h
    · rw [if_neg hlt]
      cases sv with
      | false => exact h
      | true =>
        cases hc : s.current_spreadsheet_id with
        | none =>
          simp only [hc]
          exact h
        | some sid =>
          simp only [hc, if_true]
          cases hp : (lookupKey s.user_data_prev u.id).join with
          | none =>
            have hlive := cursorOk_live_nil s u.id h hp
            cases so with
            | false =>
              simp only [hp]
              exact Or.inl hlive
            | true =>
              simp only [hp, if_true]
              right
              refine ⟨s.next_message_id, ?_, ?_⟩
              · simp [hlive]
              · rw [lookupKey_setKey_self]
                rfl
          | some m =>
            have hl1 := cursorOk_erase_tracked s u.id m h hp
            cases so with
            | false =>
              simp only [hp, if_true]
              exact Or.inl hl1
            | true =>
              simp only [hp, if_true]
              right
              refine ⟨s.next_message_id, ?_, ?_⟩
              · simp [hl1]
              · rw [lookupKey_setKey_self]
                rfl

/-- The back-navigation handler preserves the cursor invariant when its
message deletions succeed. -/
theorem button_back_cursor (s : BotState) (user chat : Nat) (k : Int) (qm : Nat) (so : Bool)
    (h : cursorOk s user) :
    cursorOk ((button_back_to_question s user chat k qm true true so).1) user := by
  unfold button_back_to_question
  cases hl : lookupKey s.responses user with
  | none => exact h
  | some v =>
    dsimp only
    simp only [if_true]
    exact send_question_cursor _ user chat k so
      (cursorOk_erase { s with responses := setKey s.responses user (pyTake v k) } user qm h)

/-- Forward/back actions of one participant with succeeding message
deletions (storage and send outcomes arbitrary). -/
def isFwdBack (user : Nat) : Action → Prop
  | Action.backToQuestion u2 _ _ _ d1 d2 _ => u2 = user ∧ d1 = true ∧ d2 = true
  | Action.textMessage tu _ _ _ _ d1 d2 _ => tu.id = user ∧ d1 = true ∧ d2 = true
  | _ => False

theorem stepFB_cursor (s : BotState) (user : Nat) (a : Action) (h : cursorOk s user)
    (ha : isFwdBack user a) : cursorOk (stepAction s a) user := by
  cases a with
  | backToQuestion u2 chat k qm d1 d2 so =>
    obtain ⟨hu, hd1, hd2⟩ := ha
    subst hu
    subst hd1
    subst hd2
    exact button_back_cursor s u2 chat k qm so h
  | textMessage tu chat t now sv d1 d2 so =>
    obtain ⟨hu, hd1, hd2⟩ := ha
    subst hd1
    subst hd2
    rw [← hu] at h ⊢
    exact receive_response_cursor s tu chat t now sv so h
  | startForm user chat qm d1 d2 so => exact ha.elim
  | backToStart user chat qm d1 => exact ha.elim
  | editAdd q => exact ha.elim
  | editRemove n => exact ha.elim
  | newWeek cr b1 b2 now => exact ha.elim

/-- C6: across any number of consecutive forward/back actions of a
participant whose message deletions succeed, the cursor invariant is
maintained: at most one bot prompt message is non-deleted, and every
non-deleted prompt message is exactly the tracked one — the previous
prompt having been deleted before the new id was recorded. -/
theorem claim_C6_single_tracked_prompt (s : BotState) (user : Nat) (acts : List Action)
    (h : cursorOk s user) (hall : ∀ a ∈ acts, isFwdBack user a) :
    cursorOk (runActions s acts) user ∧
    (runActions s acts).live_messages.length ≤ 1 ∧
    (∀ m ∈ (runActions s acts).live_messages,
      (lookupKey (runActions s acts).user_data_prev user).join = some m) := by
  have hco : cursorOk (runActions s acts) user := by
    induction acts generalizing s with
    | nil => exact h
    | cons a l ih =>
      rw [runActions_cons]
      exact ih (stepAction s a) (stepFB_cursor s user a h (hall a (by simp)))
        (fun b hb => hall b (by simp [hb]))
  refine ⟨hco, ?_, ?_⟩
  · rcases hco with h1 | ⟨m, hm, _⟩
    · simp [h1]
    · simp [hm]
  · intro m hm
    rcases hco with h1 | ⟨m', hm', ht⟩
    · rw [h1] at hm
      cases hm
    · rw [hm'] at hm
      rw [List.mem_singleton] at hm
      subst hm
      exact ht

/-- Witness for C6 at a concrete input: one forward action from the
freshly booted state. -/
theorem claim_C6_single_tracked_prompt_witness :
    cursorOk (bootState "W1" 0) 9 ∧
    (∀ a ∈ [mkText demoUser 9 0 "x"], isFwdBack 9 a) ∧
    (cursorOk (runActions (bootState "W1" 0) [mkText demoUser 9 0 "x"]) 9 ∧
      (runActions (bootState "W1" 0) [mkText demoUser 9 0 "x"]).live_messages.length ≤ 1 ∧
      (∀ m ∈ (runActions (bootState "W1" 0) [mkText demoUser 9 0 "x"]).live_messages,
        (lookupKey (runActions (bootState "W1" 0)
          [mkText demoUser 9 0 "x"]).user_data_prev 9).join = some m)) := by
  have h1 : cursorOk (bootState "W1" 0) 9 := Or.inl rfl
  have h2 : ∀ a ∈ [mkText demoUser 9 0 "x"], isFwdBack 9 a := by
    intro a ha
    rw [List.mem_singleton] at ha
    subst ha
    exact ⟨rfl, rfl, rfl⟩
  exact ⟨h1, h2, claim_C6_single_tracked_prompt (bootState "W1" 0) 9 [mkText demoUser 9 0 "x"] h1 h2⟩

/-- Shape of the session map after `button_start_form`, for any external
outcomes. -/
theorem button_start_form_responses (s : BotState) (user chat qm : Nat) (d1 d2 so : Bool) :
    ((button_start_form s user chat qm d1 d2 so).1).responses
        = setKey s.responses user [] ∧
    ((button_start_form s user chat qm d1 d2 so).1).questions = s.questions ∧
    ((button_start_form s user chat qm d1 d2 so).1).current_spreadsheet_id
        = s.current_spreadsheet_id := by
  unfold button_start_form
  cases d1 with
  | false => exact ⟨rfl, rfl, rfl⟩
  | true =>
    simp only [if_true]
    have hfr := send_question_frame
      { s with responses := setKey s.responses user ([] : List String),
               live_messages := s.live_messages.erase qm,
               user_data_prev := setKey s.user_data_prev user (none : Option Nat) }
      user chat 0 d2 so
    exact ⟨hfr.1, hfr.2.1, hfr.2.2.2.1⟩

/-- Shape of the session map after `button_back_to_start`, for any
external outcomes. -/
theorem button_back_to_start_responses (s : BotState) (user chat qm : Nat) (d1 : Bool) :
    ((button_back_to_start s user chat qm d1).1).responses = eraseKey s.responses user ∧
    ((button_back_to_start s user chat qm d1).1).questions = s.questions ∧
    ((button_back_to_start s user chat qm d1).1).current_spreadsheet_id
        = s.current_spreadsheet_id := by
  unfold button_back_to_start
  cases d1 with
  | false => exact ⟨rfl, rfl, rfl⟩
  | true => exact ⟨rfl, rfl, rfl⟩

/-- Shape of the session map after a back navigation, for any external
outcomes. -/
theorem button_back_responses (s : BotState) (user chat : Nat) (k : Int) (qm : Nat)
    (d1 d2 so : Bool) :
    ((button_back_to_question s user chat k qm d1 d2 so).1).questions = s.questions ∧
    ((button_back_to_question s user chat k qm d1 d2 so).1).current_spreadsheet_id
        = s.current_spreadsheet_id ∧
    (((button_back_to_question s user chat k qm d1 d2 so).1).responses = s.responses ∨
      ∃ v, lookupKey s.responses user = some v ∧
        ((button_back_to_question s user chat k qm d1 d2 so).1).responses
          = setKey s.responses user (pyTake v k)) := by
  unfold button_back_to_question
  cases hl : lookupKey s.responses user with
  | none => exact ⟨rfl, rfl, Or.inl rfl⟩
  | some v =>
    dsimp only
    cases d1 with
    | false => exact ⟨rfl, rfl, Or.inr ⟨v, rfl, rfl⟩⟩
    | true =>
      simp only [if_true]
      have hfr := send_question_frame
        { s with responses := setKey s.responses user (pyTake v k),
                 live_messages := s.live_messages.erase qm } user chat k d2 so
      exact ⟨hfr.2.1, hfr.2.2.2.1, Or.inr ⟨v, rfl, hfr.1⟩⟩

/-- Shape of the session map after a non-final answer, for any external
outcomes. -/
theorem receive_response_nonfinal_responses (s : BotState) (u : TgUser) (chat : Nat)
    (t : String) (now : Nat) (sv d1 d2 so : Bool) (v : List String)
    (hv : lookupKey s.responses u.id = some v)
    (hlt : (v ++ [t]).length < s.questions.length) :
    ((receive_response s u chat t now sv d1 d2 so).1).responses
        = setKey s.responses u.id (v ++ [t]) ∧
    ((receive_response s u chat t now sv d1 d2 so).1).questions = s.questions ∧
    ((receive_response s u chat t now sv d1 d2 so).1).current_spreadsheet_id
        = s.current_spreadsheet_id := by
  unfold receive_response
  simp only [hv]
  rw [if_pos (show (v ++ [t]).length <
      ({ s with responses := setKey s.responses u.id (v ++ [t]) } : BotState).questions.length
      from hlt)]
  cases d1 with
  | false => exact ⟨rfl, rfl, rfl⟩
  | true =>
    simp only [if_true]
    have hfr := send_question_frame
      { s with responses := setKey s.responses u.id (v ++ [t]) }
      u.id chat (Int.ofNat (v ++ [t]).length) d2 so
    exact ⟨hfr.1, hfr.2.1, hfr.2.2.2.1⟩

/-- Shape of the session map after a successfully persisted final answer,
for any transport outcomes: the session is erased. -/
theorem receive_response_final_responses (s : BotState) (u : TgUser) (chat : Nat)
    (t : String) (now : Nat) (d1 d2 so : Bool) (v : List String) (sid : String)
    (hv : lookupKey s.responses u.id = some v)
    (hlen : s.questions.length ≤ v.length + 1)
    (hsid : s.current_spreadsheet_id = some sid) :
    ((receive_response s u chat t now true d1 d2 so).1).responses
        = eraseKey (setKey s.responses u.id (v ++ [t])) u.id ∧
    ((receive_response s u chat t now true d1 d2 so).1).questions = s.questions ∧
    ((receive_response s u chat t now true d1 d2 so).1).current_spreadsheet_id
        = s.current_spreadsheet_id := by
  unfold receive_response
  simp only [hv]
  rw [if_neg (show ¬ (v ++ [t]).length <
      ({ s with responses := setKey s.responses u.id (v ++ [t]) } : BotState).questions.length
      by simp; omega)]
  simp only [hsid]
  cases d1 <;> cases d2 <;> cases so <;>
    cases hp : (lookupKey s.user_data_prev u.id).join <;>
      simp [hp, hsid]

/-- `create_new_sheet` never touches the session map or the catalog, and
either keeps or replaces the active spreadsheet id. -/
theorem create_new_sheet_responses (s : BotState) (cr : Option String) (b1 b2 : Bool)
    (now : Nat) :
    ((create_new_sheet s cr b1 b2 now).1).responses = s.responses ∧
    ((create_new_sheet s cr b1 b2 now).1).questions = s.questions ∧
    (((create_new_sheet s cr b1 b2 now).1).current_spreadsheet_id = s.current_spreadsheet_id ∨
      ∃ sid, ((create_new_sheet s cr b1 b2 now).1).current_spreadsheet_id = some sid) := by
  unfold create_new_sheet
  cases cr with
  | none => exact ⟨rfl, rfl, Or.inl rfl⟩
  | some sid =>
    cases b1 with
    | false => exact ⟨rfl, rfl, Or.inr ⟨sid, rfl⟩⟩
    | true =>
      cases b2 with
      | false => exact ⟨rfl, rfl, Or.inr ⟨sid, rfl⟩⟩
      | true =>
        simp only [if_true]
        exact ⟨by trivial, by trivial, Or.inr ⟨sid, by trivial⟩⟩

/-- The session-length invariant of C7 in its inductive form: the catalog
is non-empty, a spreadsheet is active, and every session is strictly
shorter than the catalog. -/
def sessionsBounded (s : BotState) : Prop :=
  0 < s.questions.length ∧ s.current_spreadsheet_id.isSome = true ∧
  ∀ u v, lookupKey s.responses u = some v → v.length < s.questions.length

/-- Actions under which the invariant is preserved: storage appends
succeed and no catalog question is removed. -/
def allowedAction : Action → Prop
  | Action.textMessage _ _ _ _ sv _ _ _ => sv = true
  | Action.editRemove _ => False
  | _ => True

theorem sessionsBounded_step (s : BotState) (a : Action) (h : sessionsBounded s)
    (ha : allowedAction a) : sessionsBounded (stepAction s a) := by
  obtain ⟨hq, hcur, hb⟩ := h
  cases a with
  | startForm user chat qm d1 d2 so =>
    show sessionsBounded ((button_start_form s user chat qm d1 d2 so).1)
    have hr := button_start_form_responses s user chat qm d1 d2 so
    refine ⟨by rw [hr.2.1]; exact hq, by rw [hr.2.2]; exact hcur, ?_⟩
    intro w v hw
    rw [hr.2.1]
    rw [hr.1] at hw
    rcases lookupKey_setKey_elim _ _ _ _ _ hw with ⟨hwu, hv⟩ | hold
    · subst hv
      simpa using hq
    · exact hb w v hold
  | backToStart user chat qm d1 =>
    show sessionsBounded ((button_back_to_start s user chat qm d1).1)
    have hr := button_back_to_start_responses s user chat qm d1
    refine ⟨by rw [hr.2.1]; exact hq, by rw [hr.2.2]; exact hcur, ?_⟩
    intro w v hw
    rw [hr.2.1]
    rw [hr.1] at hw
    exact hb w v (lookupKey_eraseKey_elim _ _ _ _ hw)
  | backToQuestion user chat k qm d1 d2 so =>
    show sessionsBounded ((button_back_to_question s user chat k qm d1 d2 so).1)
    have hr := button_back_responses s user chat k qm d1 d2 so
    refine ⟨by rw [hr.1]; exact hq, by rw [hr.2.1]; exact hcur, ?_⟩
    intro w v hw
    rw [hr.1]
    rcases hr.2.2 with hsame | ⟨v0, hv0, hset⟩
    · rw [hsame] at hw
      exact hb w v hw
    · rw [hset] at hw
      rcases lookupKey_setKey_elim _ _ _ _ _ hw with ⟨hwu, hv⟩ | hold
      · subst hv
        exact lt_of_le_of_lt (pyTake_length_le v0 k) (hb user v0 hv0)
      · exact hb w v hold
  | textMessage tu chat t now sv d1 d2 so =>
    have hsv : sv = true := ha
    subst hsv
    show sessionsBounded ((receive_response s tu chat t now true d1 d2 so).1)
    cases hl : lookupKey s.responses tu.id with
    | none =>
      have := receive_response_no_session s tu chat t now true d1 d2 so hl
      rw [this]
      exact ⟨hq, hcur, hb⟩
    | some v =>
      by_cases hlt : (v ++ [t]).length < s.questions.length
      · have hr := receive_response_nonfinal_responses s tu chat t now true d1 d2 so v hl hlt
        refine ⟨by rw [hr.2.1]; exact hq, by rw [hr.2.2]; exact hcur, ?_⟩
        intro w v1 hw
        rw [hr.2.1]
        rw [hr.1] at hw
        rcases lookupKey_setKey_elim _ _ _ _ _ hw with ⟨hwu, hv1⟩ | hold
        · subst hv1
          exact hlt
        · exact hb w v1 hold
      · obtain ⟨sid, hsid⟩ : ∃ sid, s.current_spreadsheet_id = some sid := by
          cases hcc : s.current_spreadsheet_id with
          | none => rw [hcc] at hcur; cases hcur
          | some sid => exact ⟨sid, rfl⟩
        have hr := receive_response_final_responses s tu chat t now d1 d2 so v sid hl
          (by simp at hlt; omega) hsid
        refine ⟨by rw [hr.2.1]; exact hq, by rw [hr.2.2]; exact hcur, ?_⟩
        intro w v1 hw
        rw [hr.2.1]
        rw [hr.1] at hw
        have hw2 := lookupKey_eraseKey_elim _ _ _ _ hw
        rcases lookupKey_setKey_elim _ _ _ _ _ hw2 with ⟨hwu, hv1⟩ | hold
        · subst hwu
          rw [lookupKey_eraseKey_self] at hw
          cases hw
        · exact hb w v1 hold
  | editAdd q =>
    refine ⟨by simp [stepAction, edit_questions_add], ?_, ?_⟩
    · exact hcur
    · intro w v hw
      have : lookupKey s.responses w = some v := hw
      have := hb w v this
      simp [stepAction, edit_questions_add]
      omega
  | editRemove n => exact ha.elim
  | newWeek cr b1 b2 now =>
    show sessionsBounded ((create_new_sheet s cr b1 b2 now).1)
    have hr := create_new_sheet_responses s cr b1 b2 now
    refine ⟨by rw [hr.2.1]; exact hq, ?_, ?_⟩
    · rcases hr.2.2 with hsame | ⟨sid, hsid⟩
      · rw [hsame]
        exact hcur
      · rw [hsid]
        rfl
    · intro w v hw
      rw [hr.2.1]
      rw [hr.1] at hw
      exact hb w v hw

/-- C7 (amended): the bound `0 ≤ len(answers) ≤ N` holds for every
session after any sequence of actions in which every commit attempt
succeeds and no catalog question is removed.  (The unrestricted claim
fails: a failed commit leaves a session of length `N`, and each further
text message grows it — see the counterexample.) -/
theorem claim_C7_sessions_bounded (s : BotState) (acts : List Action)
    (h : sessionsBounded s) (hall : ∀ a ∈ acts, allowedAction a) :
    ∀ u v, lookupKey (runActions s acts).responses u = some v →
      v.length ≤ (runActions s acts).questions.length := by
  have hinv : sessionsBounded (runActions s acts) := by
    induction acts generalizing s with
    | nil => exact h
    | cons a l ih =>
      rw [runActions_cons]
      exact ih (stepAction s a) (sessionsBounded_step s a h (hall a (by simp)))
        (fun b hb => hall b (by simp [hb]))
  intro u v hv
  exact le_of_lt (hinv.2.2 u v hv)

/-- Witness for C7 (amended) at a concrete input. -/
theorem claim_C7_sessions_bounded_witness :
    sessionsBounded (bootState "W1" 0) ∧
    (∀ a ∈ [Action.startForm 9 9 50 true true true, mkText demoUser 9 0 "a1"],
      allowedAction a) ∧
    (∀ u v, lookupKey (runActions (bootState "W1" 0)
        [Action.startForm 9 9 50 true true true, mkText demoUser 9 0 "a1"]).responses u
          = some v →
      v.length ≤ (runActions (bootState "W1" 0)
        [Action.startForm 9 9 50 true true true, mkText demoUser 9 0 "a1"]).questions.length) := by
  have h1 : sessionsBounded (bootState "W1" 0) := by
    refine ⟨by decide, rfl, ?_⟩
    intro u v hv
    have hnil : (bootState "W1" 0).responses = [] := rfl
    rw [hnil] at hv
    cases hv
  have h2 : ∀ a ∈ [Action.startForm 9 9 50 true true true, mkText demoUser 9 0 "a1"],
      allowedAction a := by
    intro a ha
    simp only [List.mem_cons, List.not_mem_nil, or_false] at ha
    rcases ha with rfl | rfl
    · exact trivial
    · exact rfl
  exact ⟨h1, h2, claim_C7_sessions_bounded (bootState "W1" 0) _ h1 h2⟩

/-- A reachable run in which the commit fails twice: begin, three
answers, a final answer whose persistence fails, and one retry text whose
persistence also fails. -/
def c7Actions : List Action :=
  [Action.startForm 9 9 50 true true true,
   mkText demoUser 9 0 "a1", mkText demoUser 9 0 "a2", mkText demoUser 9 0 "a3",
   Action.textMessage demoUser 9 "a4" 0 false true true true,
   Action.textMessage demoUser 9 "a5" 0 false true true true]

/-- C7 counterexample: after the reachable run `c7Actions` the session of
participant 9 holds five answers while the catalog has four questions,
violating `len(answers) ≤ N`. -/
theorem claim_C7_counterexample :
    lookupKey (runActions (bootState "W1" 0) c7Actions).responses 9
        = some ["a1", "a2", "a3", "a4", "a5"] ∧
    (runActions (bootState "W1" 0) c7Actions).questions.length = 4 ∧
    ¬ ((["a1", "a2", "a3", "a4", "a5"] : List String).length ≤ 4) := by
  refine ⟨rfl, rfl, by decide⟩

/-- The expected sequence of period numbers after `n` rotations:
`[1, 2, ..., n]`. -/
def weekKeys : Nat → List Nat
  | 0 => []
  | n + 1 => weekKeys n ++ [n + 1]

theorem mem_weekKeys_le : ∀ n m, m ∈ weekKeys n → m ≤ n := by
  intro n
  induction n with
  | zero =>
    intro m h
    simp [weekKeys] at h
  | succ n ih =>
    intro m h
    simp only [weekKeys, List.mem_append, List.mem_singleton] at h
    rcases h with h | h
    · exact le_trans (ih m h) (Nat.le_succ n)
    · omega

theorem getLast?_append_single {α : Type} (l : List α) (x : α) :
    (l ++ [x]).getLast? = some x := by
  induction l with
  | nil => rfl
  | cons a l ih =>
    cases l with
    | nil => rfl
    | cons b l2 => simpa using ih

theorem setKey_append_of_keys_ne {α : Type} (m : List (Nat × α)) (k : Nat) (v : α)
    (h : ∀ p ∈ m, p.1 ≠ k) : setKey m k v = m ++ [(k, v)] := by
  induction m with
  | nil => rfl
  | cons p ps ih =>
    have hp : (p.1 == k) = false := by simpa using h p (by simp)
    simp only [setKey, hp, Bool.false_eq_true, if_false, List.cons_append]
    rw [ih (fun q hq => h q (by simp [hq]))]

/-- The registry invariant of C8 in the form the code maintains after
successful rotations: the week counter is one past the registry size, the
registered period numbers are exactly `1..n` in order, and the active
spreadsheet id is the one recorded for the highest period number. -/
def periodInv (s : BotState) : Prop :=
  s.week_count = s.spreadsheet_ids.length + 1 ∧
  s.spreadsheet_ids.map Prod.fst = weekKeys s.spreadsheet_ids.length ∧
  (s.spreadsheet_ids ≠ [] →
    s.current_spreadsheet_id = s.spreadsheet_ids.getLast?.map Prod.snd)

/-- C8 (amended): a fully successful rotation preserves the registry
invariant — the new period gets the next number, every prior period stays
registered, and the new table becomes active; a rotation that fails
during the sharing grants (after table creation) leaves the registry and
week counter unchanged but has already repointed the active id at the
new, unregistered table, breaking the active/registry correspondence; a
rotation whose creation call fails changes nothing. -/
theorem claim_C8_rotation_registry (s : BotState) (sid : String) (now : Nat)
    (h : periodInv s) :
    (periodInv ((create_new_sheet s (some sid) true true now).1) ∧
      ((create_new_sheet s (some sid) true true now).1).spreadsheet_ids
        = s.spreadsheet_ids ++ [(s.week_count, sid)] ∧
      ((create_new_sheet s (some sid) true true now).1).current_spreadsheet_id = some sid ∧
      ((create_new_sheet s (some sid) true true now).1).week_count = s.week_count + 1 ∧
      (create_new_sheet s (some sid) true true now).2 = some sid) ∧
    (∀ b1 b2 : Bool, b1 = false ∨ b2 = false →
      ((create_new_sheet s (some sid) b1 b2 now).1).current_spreadsheet_id = some sid ∧
      ((create_new_sheet s (some sid) b1 b2 now).1).spreadsheet_ids = s.spreadsheet_ids ∧
      ((create_new_sheet s (some sid) b1 b2 now).1).week_count = s.week_count ∧
      (create_new_sheet s (some sid) b1 b2 now).2 = none) ∧
    (∀ b1 b2 : Bool, (create_new_sheet s none b1 b2 now).1 = s) := by
  obtain ⟨hwk, hkeys, hlast⟩ := h
  have hne : ∀ p ∈ s.spreadsheet_ids, p.1 ≠ s.week_count := by
    intro p hp
    have hmem : p.1 ∈ weekKeys s.spreadsheet_ids.length := by
      rw [← hkeys]
      exact List.mem_map_of_mem _ hp
    have := mem_weekKeys_le _ _ hmem
    omega
  have hset := setKey_append_of_keys_ne s.spreadsheet_ids s.week_count sid hne
  refine ⟨?_, ?_, ?_⟩
  · unfold create_new_sheet
    simp only [if_true]
    refine ⟨⟨?_, ?_, ?_⟩, ?_, by trivial, by trivial, by trivial⟩
    · show s.week_count + 1 = (setKey s.spreadsheet_ids s.week_count sid).length + 1
      rw [hset]
      simp [hwk]
    · show (setKey s.spreadsheet_ids s.week_count sid).map Prod.fst
        = weekKeys (setKey s.spreadsheet_ids s.week_count sid).length
      rw [hset]
      simp only [List.map_append, List.length_append, List.map_cons, List.map_nil,
        List.length_cons, List.length_nil]
      rw [hkeys, hwk]
      rfl
    · intro hni
      show some sid = ((setKey s.spreadsheet_ids s.week_count sid).getLast?).map Prod.snd
      rw [hset, getLast?_append_single]
      rfl
    · show setKey s.spreadsheet_ids s.week_count sid = s.spreadsheet_ids ++ [(s.week_count, sid)]
      exact hset
  · intro b1 b2 hor
    rcases hor with h1 | h2
    · subst h1
      unfold create_new_sheet
      cases b2 <;> exact ⟨by trivial, by trivial, by trivial, by trivial⟩
    · subst h2
      unfold create_new_sheet
      cases b1 <;> exact ⟨by trivial, by trivial, by trivial, by trivial⟩
  · intro b1 b2
    rfl

/-- Witness for C8 (amended) at a concrete input. -/
theorem claim_C8_rotation_registry_witness :
    periodInv (bootState "W1" 0) ∧
    ((periodInv ((create_new_sheet (bootState "W1" 0) (some "S2") true true 7).1) ∧
      ((create_new_sheet (bootState "W1" 0) (some "S2") true true 7).1).spreadsheet_ids
        = (bootState "W1" 0).spreadsheet_ids ++ [((bootState "W1" 0).week_count, "S2")] ∧
      ((create_new_sheet (bootState "W1" 0) (some "S2") true true 7).1).current_spreadsheet_id
        = some "S2" ∧
      ((create_new_sheet (bootState "W1" 0) (some "S2") true true 7).1).week_count
        = (bootState "W1" 0).week_count + 1 ∧
      (create_new_sheet (bootState "W1" 0) (some "S2") true true 7).2 = some "S2") ∧
    (∀ b1 b2 : Bool, b1 = false ∨ b2 = false →
      ((create_new_sheet (bootState "W1" 0) (some "S2") b1 b2 7).1).current_spreadsheet_id
        = some "S2" ∧
      ((create_new_sheet (bootState "W1" 0) (some "S2") b1 b2 7).1).spreadsheet_ids
        = (bootState "W1" 0).spreadsheet_ids ∧
      ((create_new_sheet (bootState "W1" 0) (some "S2") b1 b2 7).1).week_count
        = (bootState "W1" 0).week_count ∧
      (create_new_sheet (bootState "W1" 0) (some "S2") b1 b2 7).2 = none) ∧
    (∀ b1 b2 : Bool, (create_new_sheet (bootState "W1" 0) none b1 b2 7).1
        = bootState "W1" 0)) := by
  have h1 : periodInv (bootState "W1" 0) := ⟨rfl, rfl, fun _ => rfl⟩
  exact ⟨h1, claim_C8_rotation_registry (bootState "W1" 0) "S2" 7 h1⟩

/-- C8 counterexample: starting from the pristine state, a rotation
attempt whose table creation succeeds (table `S1`) but whose first
sharing grant fails leaves the registry empty and the week counter at 1
while the active spreadsheet id already points at `S1` — so the active
table identifier does not equal the table recorded for any registered
period, refuting the claim for failed rotation attempts. -/
theorem claim_C8_counterexample :
    ((create_new_sheet blankState (some "S1") false true 0).1).current_spreadsheet_id
        = some "S1" ∧
    ((create_new_sheet blankState (some "S1") false true 0).1).spreadsheet_ids = [] ∧
    ((create_new_sheet blankState (some "S1") false true 0).1).week_count = 1 ∧
    ((create_new_sheet blankState (some "S1") false true 0).1).current_spreadsheet_id
      ≠ (((create_new_sheet blankState (some "S1") false true 0).1).spreadsheet_ids.getLast?).map
          Prod.snd := by
  refine ⟨rfl, rfl, rfl, by decide⟩
